import Mathlib

/-
Verification of the `traverse` observable combinator of rxjs-etc against its
natural-language specification.  The combinator itself
(src/source/observable/traverse.ts) is not part of the available sources;
only its marble tests (src/source/observable/traverse-spec.ts) are.  The
semantics below is therefore modelled from the specification, with every
point that the in-repository marble tests pin down taken from those tests
(the tests are the authoritative code).  Time is discrete (marble frames).
-/

namespace TraverseModel

/-- A finite timed observable: a list of `(relative time, value)` events plus
a completion time `dur` (relative to subscription). -/
structure Obs (α : Type) where
  events : List (Nat × α)
  dur : Nat
deriving DecidableEq

/-- One chunk returned by a producer call: child markers plus a timed source
of payload values (`{ markers, values }` in the TypeScript tests). -/
structure Chunk (M V : Type) where
  markers : List M
  values : Obs V

/-- Modelled from the spec: the producer contract of the missing
`src/source/observable/traverse.ts` — `producer(marker, index)` returns an
asynchronous source of chunks; `none` denotes the root call. -/
def Producer (M V : Type) : Type := Option M → Nat → Obs (Chunk M V)

/-- Delay / late subscription: every event and the completion of `o` happen
`t` ticks later. -/
def Obs.shift {α : Type} (t : Nat) (o : Obs α) : Obs α :=
  ⟨o.events.map (fun e => (t + e.1, e.2)), t + o.dur⟩

/-- rxjs `concat` on timed sources: the second source is subscribed at the
moment the first completes. -/
def Obs.concatObs {α : Type} (a b : Obs α) : Obs α :=
  ⟨a.events ++ b.events.map (fun e => (a.dur + e.1, e.2)), a.dur + b.dur⟩

/-- Insert one timed event after every event of equal or earlier time: the
position of a stable time-ordered merge. -/
def insertTimed {α : Type} (y : Nat × α) : List (Nat × α) → List (Nat × α)
  | [] => [y]
  | x :: xs => if x.1 ≤ y.1 then x :: insertTimed y xs else y :: x :: xs

/-- Stable merge of two timed event lists by time; on ties the left (earlier
subscribed) list comes first. -/
def mergeTimed {α : Type} (xs ys : List (Nat × α)) : List (Nat × α) :=
  ys.foldl (fun acc y => insertTimed y acc) xs

/-- The public record of one producer call: its start time, the time its
value pipeline completes (`stop`), and the marker it was invoked with. -/
structure CallInfo (M : Type) where
  start : Nat
  stop : Nat
  marker : Option M
deriving DecidableEq

/-- Full outcome of one producer call: its `CallInfo`, the absolute-time
marker enqueue events, the absolute-time output values, and the consumer
applications `(subscription time, duration of the consumed output)`. -/
structure CallOut (M V : Type) where
  info : CallInfo M
  markerEvs : List (Nat × M)
  out : List (Nat × V)
  apps : List (Nat × Nat)

/-- Modelled from the spec: one producer call of the missing `traverse.ts`,
started at `start`.  Markers of every chunk are enqueued at chunk arrival;
the chunks' value sources are consumed sequentially in chunk order — each
passed through the consumer `c` and subscribed when the previous consumed
output completes — starting when the chunk source completes (as the
`should serialize production` and `should preserve the order` marble tests
require). -/
def runCall {M V R : Type} (p : Producer M V) (c : Obs V → Obs R)
    (marker : Option M) (idx start : Nat) : CallOut M R :=
  let src := p marker idx
  let pstart := start + src.dur
  let pipe := src.events.foldl
    (fun (acc : Obs R × List (Nat × Nat)) e =>
      let o := c e.2.values
      (Obs.concatObs acc.1 o, acc.2 ++ [(acc.1.dur, o.dur)]))
    (⟨[], 0⟩, [])
  { info := ⟨start, pstart + pipe.1.dur, marker⟩
    markerEvs := (src.events.map (fun e => e.2.markers.map (fun m => (start + e.1, m)))).flatten
    out := pipe.1.events.map (fun e => (pstart + e.1, e.2))
    apps := pipe.2.map (fun a => (pstart + a.1, a.2)) }

/-- Result of a whole traversal: timed output values, completion time
(`none` when the traversal never completes or fuel ran out), the log of
producer calls in start order, and all consumer applications. -/
structure RunResult (M V : Type) where
  output : List (Nat × V)
  done : Option Nat
  calls : List (CallInfo M)
  apps : List (Nat × Nat)
deriving DecidableEq

/-- Modelled from the spec: the free-running pacing loop of the missing
`traverse.ts`.  The next frontier entry is popped exactly when the previous
call's consumed value pipeline completes; when the frontier is empty the
traversal completes at that moment. -/
def freeLoop {M V R : Type} (p : Producer M V) (c : Obs V → Obs R) :
    Nat → List M → Nat → Nat → RunResult M R
  | 0, _, _, _ => ⟨[], none, [], []⟩
  | _ + 1, [], _, t => ⟨[], some t, [], []⟩
  | fuel + 1, m :: rest, idx, t =>
    let r := runCall p c (some m) idx t
    let tail := freeLoop p c fuel (rest ++ r.markerEvs.map Prod.snd) (idx + 1) r.info.stop
    ⟨r.out ++ tail.output, tail.done, r.info :: tail.calls, r.apps ++ tail.apps⟩

/-- Modelled from the spec: free-running `traverse` (no notifier; optional
consumer `c`, identity when absent).  The root call happens eagerly at time
0 with no marker. -/
def runFree {M V R : Type} (p : Producer M V) (c : Obs V → Obs R)
    (fuel : Nat) : RunResult M R :=
  let r := runCall p c none 0 0
  let tail := freeLoop p c fuel (r.markerEvs.map Prod.snd) 1 r.info.stop
  ⟨r.out ++ tail.output, tail.done, r.info :: tail.calls, r.apps ++ tail.apps⟩

/-- Modelled from the spec: the notifier-driven pacing loop of the missing
`traverse.ts`.  `seq` is the global frontier enqueue sequence (sorted by
enqueue time) of every call started so far, `popped` the number of markers
already consumed.  Each pacing signal is matched FIFO with the next frontier
marker: the pop happens at `max signal-time enqueue-time`, i.e. a signal
arriving early is queued and a queued signal is consumed as soon as a marker
is available (the `should queue notifications` tests).  Calls started this
way may overlap in time (the `should queue notifications for graphs` test). -/
def notifLoop {M V : Type} (p : Producer M V) :
    List Nat → Nat → List (Nat × M) → Nat → List (CallOut M V) →
    List (Nat × M) × Nat × List (CallOut M V)
  | [], popped, seq, _, acc => (seq, popped, acc)
  | s :: sigs, popped, seq, idx, acc =>
    match seq[popped]? with
    | none => notifLoop p sigs popped seq idx acc
    | some am =>
      let r := runCall p (fun o => o) (some am.2) idx (max s am.1)
      notifLoop p sigs (popped + 1) (mergeTimed seq r.markerEvs) (idx + 1) (acc ++ [r])

/-- Modelled from the spec: notifier-driven `traverse`.  The root call is
eager at time 0 with no marker; afterwards one frontier pop is authorized
per pacing signal.  The traversal completes — regardless of the notifier —
exactly when every enqueued marker has been popped and every call's value
pipeline has completed. -/
def runNotif {M V : Type} (p : Producer M V) (sigs : List Nat) : RunResult M V :=
  let root := runCall p (fun o => o) none 0 0
  let fin := notifLoop p sigs 0 root.markerEvs 1 [root]
  { output := fin.2.2.foldl (fun o r => mergeTimed o r.out) []
    done := if fin.2.1 = fin.1.length
            then some (fin.2.2.foldl (fun t r => max t r.info.stop) 0)
            else none
    calls := fin.2.2.map (fun r => r.info)
    apps := fin.2.2.foldl (fun l r => l ++ r.apps) [] }

/-- The optional second argument of `traverse`: either a pacing notifier
observable or a consumer transform, never both — a single parameter whose
kind selects the pacing behaviour. -/
inductive NotifierOrConsumer (V : Type) where
  | notifier (sigs : List Nat)
  | consumer (c : Obs V → Obs V)
  | absent

/-- Modelled from the spec: the two-argument `traverse` entry point of the
missing `traverse.ts`.  A notifier second argument selects notifier-driven
pacing; a consumer function selects free-running pacing with the transform;
an absent argument selects plain free-running pacing. -/
def traverse {M V : Type} (p : Producer M V) (arg : NotifierOrConsumer V)
    (fuel : Nat) : RunResult M V :=
  match arg with
  | .notifier sigs => runNotif p sigs
  | .consumer c => runFree p c fuel
  | .absent => runFree p (fun o => o) fuel

/-! Concrete producers from `src/source/observable/traverse-spec.ts`. -/

/-- The `createProducer` helper of the test file: given marker `m` the call
is at position `pos = m + 1` (`0` for the root), returns one chunk with
markers `[pos]` and the `count` string values `pos, pos+1, …` — unless
`pos` exceeds `mx`, in which case the chunk source is empty.  The whole
chunk source is delayed by `time`. -/
def createProducer (mx : Option Int) (count : Nat) (time : Nat) : Producer Nat String :=
  fun marker _ =>
    let pos : Nat := match marker with | none => 0 | some m => m + 1
    let chunk : Chunk Nat String :=
      ⟨[pos], ⟨(List.range count).map (fun c => (0, Nat.repr (pos + c))), 0⟩⟩
    let src : Obs (Chunk Nat String) :=
      match mx with
      | none => ⟨[(0, chunk)], 0⟩
      | some mxv => if (pos : Int) ≤ mxv then ⟨[(0, chunk)], 0⟩ else ⟨[], 0⟩
    Obs.shift time src

/-- A node of the object graph used by the graph-traversal tests: a list of
`(key, child)` pairs. -/
inductive GNode where
  | mk (children : List (String × GNode))

/-- The child list of a graph node. -/
def GNode.children : GNode → List (String × GNode)
  | .mk cs => cs

/-- The `data` object of the graph tests:
`{ a: { d: {}, e: {} }, b: { f: {} }, c: {} }`. -/
def gdata : GNode :=
  .mk [("a", .mk [("d", .mk []), ("e", .mk [])]),
       ("b", .mk [("f", .mk [])]),
       ("c", .mk [])]

/-- The graph producer of the tests: the root call visits `gdata`, later
calls visit their marker node; each child yields one chunk
`{ markers: [child], values: [key] }`; a non-empty pair list is delayed by
`time`, an empty one is `empty()`. -/
def graphProducer (time : Nat) : Producer GNode String :=
  fun marker idx =>
    let node := if idx = 0 then gdata else marker.getD gdata
    let pairs := node.children.map
      (fun kv => ((0 : Nat), Chunk.mk [kv.2] ⟨[(0, kv.1)], 0⟩))
    if pairs.isEmpty then ⟨[], 0⟩ else Obs.shift time ⟨pairs, 0⟩

/-- The producer of the `should serialize production` test: the root call
yields `w` at once (markers `x, y, z`, no values); the calls for `x`, `y`,
`z` each yield one no-marker chunk with two array values at frame 0 and a
chunk source completing at frame 5. -/
def serializeProducer : Producer String String :=
  fun marker _ =>
    match marker with
    | none => ⟨[(0, ⟨["x", "y", "z"], ⟨[], 0⟩⟩)], 0⟩
    | some "x" => ⟨[(0, ⟨[], ⟨[(0, "a"), (0, "b")], 0⟩⟩)], 5⟩
    | some "y" => ⟨[(0, ⟨[], ⟨[(0, "c"), (0, "d")], 0⟩⟩)], 5⟩
    | some "z" => ⟨[(0, ⟨[], ⟨[(0, "e"), (0, "f")], 0⟩⟩)], 5⟩
    | some _ => ⟨[], 0⟩

/-- The producer of the `should preserve the order` test, generalized over
the three value delays (`6`, `2`, `4` in the test): the root call yields
three chunks at frame 0, whose single-value sources complete after `da`,
`db`, `dc` respectively; every later call is `empty()`. -/
def triDelayProducer (da db dc : Nat) : Producer Nat String :=
  fun _ idx =>
    if idx = 0 then
      ⟨[(0, ⟨[], ⟨[(da, "a")], da⟩⟩),
        (0, ⟨[], ⟨[(db, "b")], db⟩⟩),
        (0, ⟨[], ⟨[(dc, "c")], dc⟩⟩)], 0⟩
    else ⟨[], 0⟩

/-- The paginated GitHub producer of the usage example: page one yields two
repository values and the marker of page two; page two yields two more
values and no marker. -/
def pagesProducer : Producer String String :=
  fun marker _ =>
    match marker with
    | none => ⟨[(0, ⟨["page2"], ⟨[(0, "rxjs-etc"), (0, "rxjs-marbles")], 0⟩⟩)], 0⟩
    | some _ => ⟨[(0, ⟨[], ⟨[(0, "rxjs-spy"), (0, "rxjs-tslint-rules")], 0⟩⟩)], 0⟩

/-- A producer whose root call returns a single empty chunk (no markers, no
values) on a chunk source completing at `d`. -/
def emptyChunkProducer (d : Nat) : Producer Nat String :=
  fun _ _ => ⟨[(0, ⟨[], ⟨[], 0⟩⟩)], d⟩

/-- The consumer of the consumer tests: `source => concat(source, other)`
where `other` is a valueless source completing after `w` frames. -/
def trailerConsumer (w : Nat) : Obs String → Obs String :=
  fun o => Obs.concatObs o ⟨[], w⟩

/-! Sanity checks: the model reproduces every marble test of
`traverse-spec.ts` exactly. -/

example : runNotif (createProducer (some (-1)) 1 5) [2] =
    ⟨[], some 5, [⟨0, 5, none⟩], []⟩ := by decide

example : runNotif (createProducer none 1 0) [] =
    ⟨[(0, "0")], none, [⟨0, 0, none⟩], [(0, 0)]⟩ := by decide

example : (runNotif (createProducer none 1 0) [2, 7, 10]).output =
    [(0, "0"), (2, "1"), (7, "2"), (10, "3")] := by decide

example : (runNotif (createProducer none 2 0) [5, 13, 19]).output =
    [(0, "0"), (0, "1"), (5, "1"), (5, "2"), (13, "2"), (13, "3"),
     (19, "3"), (19, "4")] := by decide

example : (runNotif (createProducer none 1 4) [1, 2]).output =
    [(4, "0"), (8, "1"), (12, "2")] := by decide

example : runFree (createProducer (some 2) 1 4) (fun o => o) 9 =
    ⟨[(4, "0"), (8, "1"), (12, "2")], some 16,
     [⟨0, 4, none⟩, ⟨4, 8, some 0⟩, ⟨8, 12, some 1⟩, ⟨12, 16, some 2⟩],
     [(4, 0), (8, 0), (12, 0)]⟩ := by decide

example : runFree (createProducer (some 2) 1 4) (trailerConsumer 0) 9 =
    ⟨[(4, "0"), (8, "1"), (12, "2")], some 16,
     [⟨0, 4, none⟩, ⟨4, 8, some 0⟩, ⟨8, 12, some 1⟩, ⟨12, 16, some 2⟩],
     [(4, 0), (8, 0), (12, 0)]⟩ := by decide

example : runFree (createProducer (some 2) 1 0) (trailerConsumer 4) 9 =
    ⟨[(0, "0"), (4, "1"), (8, "2")], some 12,
     [⟨0, 4, none⟩, ⟨4, 8, some 0⟩, ⟨8, 12, some 1⟩, ⟨12, 12, some 2⟩],
     [(0, 4), (4, 4), (8, 4)]⟩ := by decide

example : (runNotif (graphProducer 0) [6, 12]).output =
    [(0, "a"), (0, "b"), (0, "c"), (6, "d"), (6, "e"), (12, "f")] := by decide

example : (runFree serializeProducer (fun o => o) 9).output =
    [(5, "a"), (5, "b"), (10, "c"), (10, "d"), (15, "e"), (15, "f")] ∧
    (runFree serializeProducer (fun o => o) 9).done = some 15 := by decide

example : (runNotif (graphProducer 6) [0, 1]).output =
    [(6, "a"), (6, "b"), (6, "c"), (12, "d"), (12, "e"), (12, "f")] ∧
    ((runNotif (graphProducer 6) [0, 1]).calls.map fun ci => (ci.start, ci.stop)) =
      [(0, 6), (6, 12), (6, 12)] := by decide

example : (runFree (graphProducer 6) (fun o => o) 19).output =
    [(6, "a"), (6, "b"), (6, "c"), (12, "d"), (12, "e"), (18, "f")] ∧
    (runFree (graphProducer 6) (fun o => o) 19).done = some 18 := by decide

example : (runFree (triDelayProducer 6 2 4) (fun o => o) 2).output =
    [(6, "a"), (8, "b"), (12, "c")] := by decide

example : (runNotif pagesProducer [1]).output =
    [(0, "rxjs-etc"), (0, "rxjs-marbles"), (1, "rxjs-spy"),
     (1, "rxjs-tslint-rules")] ∧
    (runNotif pagesProducer [1]).done = some 1 := by decide

/-! Helper lemmas about the model. -/

theorem insertTimed_append {α : Type} (y : Nat × α) (xs : List (Nat × α))
    (h : ∀ x ∈ xs, x.1 ≤ y.1) : insertTimed y xs = xs ++ [y] := by
  induction xs with
  | nil => rfl
  | cons x xs ih =>
    simp only [insertTimed, h x (by simp), if_true, List.cons_append, List.cons.injEq,
      true_and]
    exact ih (fun a ha => h a (by simp [ha]))

theorem mergeTimed_nil {α : Type} (xs : List (Nat × α)) : mergeTimed xs [] = xs := rfl

theorem mergeTimed_single {α : Type} (xs : List (Nat × α)) (y : Nat × α) :
    mergeTimed xs [y] = insertTimed y xs := rfl

theorem insertTimed_length {α : Type} (y : Nat × α) (xs : List (Nat × α)) :
    (insertTimed y xs).length = xs.length + 1 := by
  induction xs with
  | nil => rfl
  | cons x xs ih =>
    by_cases h : x.1 ≤ y.1 <;> simp [insertTimed, h, ih]

theorem mergeTimed_length {α : Type} (xs ys : List (Nat × α)) :
    (mergeTimed xs ys).length = xs.length + ys.length := by
  induction ys generalizing xs with
  | nil => simp [mergeTimed_nil]
  | cons y ys ih =>
    have : mergeTimed xs (y :: ys) = mergeTimed (insertTimed y xs) ys := rfl
    rw [this, ih, insertTimed_length]
    simp only [List.length_cons]
    omega

/-- If the frontier sequence holds no marker at position `popped`, no marker
ever arrives again (all started calls are already accounted in `seq`), so
every remaining signal is merely queued and the state is left unchanged. -/
theorem notifLoop_no_marker {M V : Type} (p : Producer M V) (sigs : List Nat)
    (popped : Nat) (seq : List (Nat × M)) (idx : Nat) (acc : List (CallOut M V))
    (h : seq[popped]? = none) :
    notifLoop p sigs popped seq idx acc = (seq, popped, acc) := by
  induction sigs with
  | nil => rfl
  | cons s rest ih => simp [notifLoop, h, ih]

/-- The notifier loop only ever appends to the call log. -/
theorem notifLoop_acc_mono {M V : Type} (p : Producer M V) (sigs : List Nat) :
    ∀ (popped : Nat) (seq : List (Nat × M)) (idx : Nat) (acc : List (CallOut M V)),
    ∃ ext, (notifLoop p sigs popped seq idx acc).2.2 = acc ++ ext := by
  induction sigs with
  | nil => exact fun _ _ _ acc => ⟨[], by simp [notifLoop]⟩
  | cons s rest ih =>
    intro popped seq idx acc
    cases h : seq[popped]? with
    | none =>
      obtain ⟨ext, hext⟩ := ih popped seq idx acc
      exact ⟨ext, by simp [notifLoop, h, hext]⟩
    | some am =>
      obtain ⟨ext, hext⟩ := ih (popped + 1)
        (mergeTimed seq (runCall p (fun o => o) (some am.2) idx (max s am.1)).markerEvs)
        (idx + 1) (acc ++ [runCall p (fun o => o) (some am.2) idx (max s am.1)])
      refine ⟨runCall p (fun o => o) (some am.2) idx (max s am.1) :: ext, ?_⟩
      simp only [notifLoop, h, hext]
      simp

/-- Every producer call starts no later than its value pipeline completes. -/
theorem runCall_start_le_stop {M V R : Type} (p : Producer M V) (c : Obs V → Obs R)
    (marker : Option M) (idx start : Nat) :
    (runCall p c marker idx start).info.start = start ∧
    start ≤ (runCall p c marker idx start).info.stop := by
  refine ⟨rfl, ?_⟩
  show start ≤ start + (p marker idx).dur + _
  omega

/-- Sequential chaining of call records: the head call starts at `t`, runs
at least until its `stop`, and the rest chain from that `stop`. -/
def chainFrom {M : Type} : Nat → List (CallInfo M) → Prop
  | _, [] => True
  | t, ci :: rest => ci.start = t ∧ t ≤ ci.stop ∧ chainFrom ci.stop rest

theorem freeLoop_chain {M V R : Type} (p : Producer M V) (c : Obs V → Obs R) :
    ∀ (fuel : Nat) (front : List M) (idx t : Nat),
    chainFrom t (freeLoop p c fuel front idx t).calls := by
  intro fuel
  induction fuel with
  | zero => intro front idx t; simp [freeLoop, chainFrom]
  | succ fuel ih =>
    intro front idx t
    cases front with
    | nil => simp [freeLoop, chainFrom]
    | cons m rest =>
      refine ⟨rfl, (runCall_start_le_stop p c (some m) idx t).2, ?_⟩
      exact ih _ _ _

theorem runFree_chain {M V R : Type} (p : Producer M V) (c : Obs V → Obs R)
    (fuel : Nat) : chainFrom 0 (runFree p c fuel).calls := by
  refine ⟨rfl, (runCall_start_le_stop p c none 0 0).2, ?_⟩
  exact freeLoop_chain p c _ _ _ _

theorem chainFrom_get {M : Type} :
    ∀ (L : List (CallInfo M)) (t i : Nat) (ci cj : CallInfo M),
    chainFrom t L → L.get? i = some ci → L.get? (i + 1) = some cj →
    cj.start = ci.stop ∧ ci.start ≤ ci.stop := by
  intro L
  induction L with
  | nil => intro t i ci cj _ h; simp at h
  | cons x rest ih =>
    intro t i ci cj hc hi hj
    cases i with
    | zero =>
      simp at hi
      subst hi
      cases rest with
      | nil => simp at hj
      | cons y ys =>
        simp at hj
        subst hj
        exact ⟨hc.2.2.1, hc.1 ▸ hc.2.1⟩
    | succ i =>
      simp only [List.get?_cons_succ] at hi hj
      exact ih x.stop i ci cj hc.2.2 hi hj

/-! The claims. -/

/-- Modelled from the spec's own words (section 4.3: the value sources of
in-flight chunks are subscribed on discovery and merged concurrently, so
output order is completion-time order): the merged output the specification
predicts for the chunks of the root call.  Used to compare the spec's
claimed ordering against the traversal's actual one. -/
def specConcurrentMerge {M V : Type} (p : Producer M V) : List (Nat × V) :=
  ((p none 0).events.map (fun e => (Obs.shift e.1 e.2.values).events)).foldl
    (fun acc l => mergeTimed acc l) []

/-- C1: counterexample.  In the `should preserve the order` scenario (three
chunks discovered at frame 0 whose single values complete after 6, 2 and 4
frames) the spec's completion-time merge would emit `b, c, a` at frames 2,
4, 6; the traversal actually emits `a, b, c` at frames 6, 8, 12 — each
chunk's value source is only subscribed once the previous one completes, so
the observed order is chunk-discovery order, not completion-time order. -/
theorem completionOrderClaim_refuted :
    specConcurrentMerge (triDelayProducer 6 2 4) = [(2, "b"), (4, "c"), (6, "a")] ∧
    (runFree (triDelayProducer 6 2 4) (fun o => o) 2).output =
      [(6, "a"), (8, "b"), (12, "c")] ∧
    (runFree (triDelayProducer 6 2 4) (fun o => o) 2).output.map Prod.snd ≠
      (specConcurrentMerge (triDelayProducer 6 2 4)).map Prod.snd := by
  decide

/-- C1 (amended): values are emitted in chunk-discovery order, not
completion-time order: the chunks' value sources are consumed sequentially,
each subscribed when the previous completes, so for arbitrary delays the
values of the `should preserve the order` producer surface at the
accumulated delays `da, da+db, da+db+dc` in discovery order `a, b, c`, and
the traversal completes with the last value source. -/
theorem output_follows_discovery_order (da db dc : Nat) :
    (runFree (triDelayProducer da db dc) (fun o => o) 2).output =
      [(da, "a"), (da + db, "b"), (da + db + dc, "c")] ∧
    (runFree (triDelayProducer da db dc) (fun o => o) 2).done =
      some (da + db + dc) := by
  constructor <;>
    simp [runFree, freeLoop, runCall, triDelayProducer, Obs.concatObs, Obs.shift]

/-- C2: counterexample.  In the `should traverse with a consumer` scenario
the consumer (which appends the trailer source `other`) is applied three
times — once per chunk, subscribed at frames 4, 8 and 12 exactly as the
test's expected subscription marbles — not once per traversal. -/
theorem consumerOncePerTraversal_refuted :
    (runFree (createProducer (some 2) 1 4) (trailerConsumer 0) 9).apps =
      [(4, 0), (8, 0), (12, 0)] ∧
    (runFree (createProducer (some 2) 1 4) (trailerConsumer 0) 9).apps.length ≠ 1 := by
  decide

/-- C2 (amended): the transform is applied once per chunk of each producer
call, to that chunk's value source, and any lifecycle behaviour it attaches
(the appended trailer) is subscribed once per chunk: in the `should traverse
with asynchonous consumers` scenario there are three applications, one per
chunk, subscribed back to back at frames 0, 4, 8, each running the 4-frame
trailer, while the emitted values pass through unchanged. -/
theorem consumer_applied_once_per_chunk :
    runFree (createProducer (some 2) 1 0) (trailerConsumer 4) 9 =
      ⟨[(0, "0"), (4, "1"), (8, "2")], some 12,
       [⟨0, 4, none⟩, ⟨4, 8, some 0⟩, ⟨8, 12, some 1⟩, ⟨12, 12, some 2⟩],
       [(0, 4), (4, 4), (8, 4)]⟩ := by
  decide

/-- C5: counterexample.  In the `should queue notifications for graphs`
scenario (two signals queued while the root call is in flight) the two
queued signals start two producer calls at frame 6 which both run until
frame 12: two producer calls are open at the same instant, refuting "at
every instant at most one producer call is open". -/
theorem oneOpenCallAtATime_refuted :
    ((runNotif (graphProducer 6) [0, 1]).calls.map fun ci => (ci.start, ci.stop)) =
      [(0, 6), (6, 12), (6, 12)] ∧
    ∃ ci cj, (runNotif (graphProducer 6) [0, 1]).calls.get? 1 = some ci ∧
      (runNotif (graphProducer 6) [0, 1]).calls.get? 2 = some cj ∧
      ci.start < cj.stop ∧ cj.start < ci.stop := by
  exact ⟨by decide, _, _, rfl, rfl, by decide, by decide⟩

/-- C5 (amended): in free-running mode producer calls are strictly
sequential — every call starts exactly when the previous call's value
pipeline completes (and no call stops before it starts); only in
notifier-driven mode may calls overlap when several signals are queued. -/
theorem freeRunning_calls_sequential {M V R : Type} (p : Producer M V)
    (c : Obs V → Obs R) (fuel i : Nat) (ci cj : CallInfo M)
    (hi : (runFree p c fuel).calls.get? i = some ci)
    (hj : (runFree p c fuel).calls.get? (i + 1) = some cj) :
    cj.start = ci.stop ∧ ci.start ≤ ci.stop :=
  chainFrom_get _ 0 i ci cj (runFree_chain p c fuel) hi hj

/-- Witness for the free-running sequencing theorem at the
`should traverse without a notifier` scenario. -/
theorem freeRunning_calls_sequential_witness :
    (runFree (createProducer (some 2) 1 4) (fun o => o) 9).calls.get? 0 =
      some ⟨0, 4, none⟩ ∧
    (runFree (createProducer (some 2) 1 4) (fun o => o) 9).calls.get? 1 =
      some ⟨4, 8, some 0⟩ ∧
    ((⟨4, 8, some 0⟩ : CallInfo Nat).start = (⟨0, 4, none⟩ : CallInfo Nat).stop ∧
      (⟨0, 4, none⟩ : CallInfo Nat).start ≤ (⟨0, 4, none⟩ : CallInfo Nat).stop) :=
  ⟨by decide, by decide,
    freeRunning_calls_sequential (createProducer (some 2) 1 4) (fun o => o) 9 0
      ⟨0, 4, none⟩ ⟨4, 8, some 0⟩ (by decide) (by decide)⟩

/-- C8: if the root producer call returns an empty chunk (no markers, no
values) on a chunk source completing at frame `d`, the traversal's output
completes at `d` having emitted no values — in notifier-driven mode for any
signals whatsoever, and in free-running mode alike. -/
theorem emptyRootChunk_completes_empty (d : Nat) (sigs : List Nat) (fuel : Nat) :
    (runNotif (emptyChunkProducer d) sigs).output = [] ∧
    (runNotif (emptyChunkProducer d) sigs).done = some d ∧
    (runFree (emptyChunkProducer d) (fun o => o) (fuel + 1)).output = [] ∧
    (runFree (emptyChunkProducer d) (fun o => o) (fuel + 1)).done = some d := by
  have hroot : runCall (emptyChunkProducer d) (fun o => o) none 0 0 =
      ⟨⟨0, d, none⟩, [], [], [(d, 0)]⟩ := by
    simp [runCall, emptyChunkProducer, Obs.concatObs]
  have hloop := notifLoop_no_marker (emptyChunkProducer d) sigs 0 [] 1
    [(⟨⟨0, d, none⟩, [], [], [(d, 0)]⟩ : CallOut Nat String)] rfl
  refine ⟨?_, ?_, ?_, ?_⟩ <;>
    simp [runNotif, runFree, freeLoop, hroot, hloop, mergeTimed_nil]

/-- C9: the notifier and the consumer occupy the same single optional second
parameter — the argument is either a notifier, a consumer, or absent, never
both — and its kind alone selects the pacing behaviour: a notifier argument
runs the notifier-driven semantics, a consumer argument runs free-running
semantics with the transform, an absent argument plain free-running; with an
empty notifier the same producer stalls after the eager root call, while
free-running it runs to completion. -/
theorem second_argument_selects_mode :
    (∀ (M V : Type) (p : Producer M V) (sigs : List Nat) (fuel : Nat),
      traverse p (NotifierOrConsumer.notifier sigs) fuel = runNotif p sigs) ∧
    (∀ (M V : Type) (p : Producer M V) (c : Obs V → Obs V) (fuel : Nat),
      traverse p (NotifierOrConsumer.consumer c) fuel = runFree p c fuel) ∧
    (∀ (M V : Type) (p : Producer M V) (fuel : Nat),
      traverse p NotifierOrConsumer.absent fuel = runFree p (fun o => o) fuel) ∧
    (traverse (createProducer (some 2) 1 4) (NotifierOrConsumer.notifier []) 9).done
      = none ∧
    (traverse (createProducer (some 2) 1 4) NotifierOrConsumer.absent 9).done
      = some 16 := by
  exact ⟨fun _ _ _ _ _ => rfl, fun _ _ _ _ _ => rfl, fun _ _ _ _ => rfl,
    by decide, by decide⟩

/-- C10: in free-running mode with a consumer, pacing is gated by the
completion of the transformed per-chunk output: with synchronous chunks and
an appended trailer of duration `w`, each subsequent producer call starts
exactly when the previous chunk's consumed output — raw value plus trailer —
completes, at frames `w`, `2w`, `3w`. -/
theorem consumer_output_gates_pacing (w : Nat) :
    ((runFree (createProducer (some 2) 1 0) (trailerConsumer w) 9).calls.map
        (fun ci => (ci.start, ci.stop))) =
      [(0, w), (w, w + w), (w + w, w + w + w), (w + w + w, w + w + w)] ∧
    (runFree (createProducer (some 2) 1 0) (trailerConsumer w) 9).apps =
      [(0, w), (w, w), (w + w, w)] := by
  constructor <;>
    simp +decide [runFree, freeLoop, runCall, createProducer, trailerConsumer,
      Obs.concatObs, Obs.shift]

/-- C7: in both pacing modes the very first producer call happens eagerly at
subscription time (frame 0) and is invoked with no marker (the root),
without waiting for any pacing signal; and the root chunk's values are
emitted as soon as produced — with no signals sent at all the root value
still surfaces at frame 0. -/
theorem root_call_eager_no_marker :
    (∀ (M V : Type) (p : Producer M V) (sigs : List Nat),
      ((runNotif p sigs).calls.map (fun ci => (ci.start, ci.marker))).head? =
        some (0, none)) ∧
    (∀ (M V R : Type) (p : Producer M V) (c : Obs V → Obs R) (fuel : Nat),
      ((runFree p c fuel).calls.map (fun ci => (ci.start, ci.marker))).head? =
        some (0, none)) ∧
    (runNotif (createProducer none 1 0) []).output = [(0, "0")] := by
  refine ⟨?_, fun M V R p c fuel => rfl, by decide⟩
  intro M V p sigs
  obtain ⟨ext, hext⟩ := notifLoop_acc_mono p sigs 0
    (runCall p (fun o => o) none 0 0).markerEvs 1 [runCall p (fun o => o) none 0 0]
  simp only [runNotif]
  rw [hext]
  simp only [List.cons_append, List.map_cons, List.head?_cons]
  rfl

/-- C6: when the frontier is empty and no producer call is outstanding the
traversal's output completes, even though the pacing notifier is still
active: for the paginated GitHub producer, a single signal at any frame `s`
— with arbitrarily many further signals still to come and the notifier never
completing — completes the traversal at frame `s` after emitting the four
repositories in order. -/
theorem completes_while_notifier_active (s : Nat) (rest : List Nat) :
    (runNotif pagesProducer (s :: rest)).done = some s ∧
    (runNotif pagesProducer (s :: rest)).output =
      [(0, "rxjs-etc"), (0, "rxjs-marbles"), (s, "rxjs-spy"),
       (s, "rxjs-tslint-rules")] ∧
    ((runNotif pagesProducer (s :: rest)).calls.map fun ci => (ci.start, ci.stop)) =
      [(0, 0), (s, s)] := by
  have hroot : runCall pagesProducer (fun o => o) none 0 0 =
      ⟨⟨0, 0, none⟩, [(0, "page2")],
       [(0, "rxjs-etc"), (0, "rxjs-marbles")], [(0, 0)]⟩ := by
    simp [runCall, pagesProducer, Obs.concatObs]
  have hcall : runCall pagesProducer (fun o => o) (some "page2") 1 s =
      ⟨⟨s, s, some "page2"⟩, [],
       [(s, "rxjs-spy"), (s, "rxjs-tslint-rules")], [(s, 0)]⟩ := by
    simp [runCall, pagesProducer, Obs.concatObs]
  have hskip := notifLoop_no_marker pagesProducer rest 1 [(0, "page2")] 2
    [(⟨⟨0, 0, none⟩, [(0, "page2")],
       [(0, "rxjs-etc"), (0, "rxjs-marbles")], [(0, 0)]⟩ : CallOut String String),
     ⟨⟨s, s, some "page2"⟩, [],
       [(s, "rxjs-spy"), (s, "rxjs-tslint-rules")], [(s, 0)]⟩] rfl
  refine ⟨?_, ?_, ?_⟩ <;>
    simp [runNotif, notifLoop, hroot, hcall, hskip, mergeTimed_nil, mergeTimed,
      insertTimed, Nat.zero_le, -Prod.mk_zero_zero]

/-! The linear-chain producer `createProducer none 1 d`: every call yields
exactly one chunk with one child marker, arriving `d` frames after the call
starts.  Used for the pacing-accounting claims. -/

theorem runCall_linear (d m idx t : Nat) :
    runCall (createProducer none 1 d) (fun o => o) (some m) idx t =
      ⟨⟨t, t + d, some m⟩, [(t + d, m + 1)],
       [(t + d, Nat.repr (m + 1))], [(t + d, 0)]⟩ := by
  have hr : List.range 1 = [0] := rfl
  simp [runCall, createProducer, Obs.shift, Obs.concatObs, hr, Function.comp]

theorem runCall_linear_root (d : Nat) :
    runCall (createProducer none 1 d) (fun o => o) none 0 0 =
      ⟨⟨0, d, none⟩, [(d, 0)], [(d, Nat.repr 0)], [(d, 0)]⟩ := by
  have hr : List.range 1 = [0] := rfl
  simp [runCall, createProducer, Obs.shift, Obs.concatObs, hr, Function.comp]

/-- With the linear-chain producer the frontier sequence always holds
exactly one not-yet-popped marker, so every signal advances the traversal by
exactly one producer call. -/
theorem notifLoop_linear_count (d : Nat) (sigs : List Nat) :
    ∀ (popped : Nat) (seq : List (Nat × Nat)) (idx : Nat)
      (acc : List (CallOut Nat String)),
    seq.length = popped + 1 →
    ((notifLoop (createProducer none 1 d) sigs popped seq idx acc).2.2).length =
      acc.length + sigs.length := by
  induction sigs with
  | nil => intro popped seq idx acc _; simp [notifLoop]
  | cons s rest ih =>
    intro popped seq idx acc h
    cases hg : seq[popped]? with
    | none =>
      exfalso
      have := List.getElem?_eq_none_iff.mp hg
      omega
    | some am =>
      simp only [notifLoop, hg]
      have hme : (runCall (createProducer none 1 d) (fun o => o) (some am.2) idx
          (max s am.1)).markerEvs = [(max s am.1 + d, am.2 + 1)] := by
        rw [runCall_linear]
      rw [ih (popped + 1) _ (idx + 1) _ (by rw [mergeTimed_length, hme]; simp [h])]
      simp only [List.length_append, List.length_cons, List.length_nil]
      omega

/-- C4: in notifier-driven mode, after the implicit eager root call exactly
one frontier pop happens per received pacing signal: for the linear-chain
producer (whose frontier is never empty) any `n` signals produce exactly
`1 + n` producer calls, and with no signal no advance beyond the root call
occurs. -/
theorem one_advance_per_signal (d : Nat) (sigs : List Nat) :
    ((runNotif (createProducer none 1 d) sigs).calls).length = 1 + sigs.length := by
  simp only [runNotif, runCall_linear_root]
  rw [List.length_map]
  rw [notifLoop_linear_count d sigs 0 [(d, 0)] 1 _ (by simp)]
  simp

/-- The frontier enqueue sequence of the linear-chain producer: marker `i`
is enqueued at frame `(i + 1) * d`. -/
def linSeq (d n : Nat) : List (Nat × Nat) :=
  (List.range n).map (fun i => ((i + 1) * d, i))

theorem linSeq_getElem (d j : Nat) : (linSeq d (j + 1))[j]? = some ((j + 1) * d, j) := by
  simp [linSeq]

theorem linSeq_merge (d j : Nat) :
    mergeTimed (linSeq d (j + 1)) [((j + 1) * d + d, j + 1)] = linSeq d (j + 1 + 1) := by
  rw [mergeTimed_single, insertTimed_append]
  · have : linSeq d (j + 1 + 1) = linSeq d (j + 1) ++ [((j + 1 + 1) * d, j + 1)] := by
      simp [linSeq, List.range_succ]
    rw [this, Nat.succ_mul (j + 1) d]
  · intro x hx
    simp only [linSeq, List.mem_map, List.mem_range] at hx
    obtain ⟨i, hi, hx⟩ := hx
    have : (i + 1) * d ≤ (j + 1) * d := Nat.mul_le_mul_right d (by omega)
    subst hx
    simpa using le_trans this (Nat.le_add_right _ d)

/-- With the linear-chain producer, when all `sigs` signals arrive before the
root chunk (frame `d`), pop `j` happens exactly when the marker it consumes
is enqueued — at frame `(j + 1) * d`, the completion of the previous call's
chunk — so each queued signal is consumed the moment a marker becomes
available. -/
theorem notifLoop_linear_starts (d : Nat) (sigs : List Nat) :
    ∀ (j idx : Nat) (acc : List (CallOut Nat String)),
    (∀ s ∈ sigs, s < d) →
    (((notifLoop (createProducer none 1 d) sigs j (linSeq d (j + 1)) idx acc).2.2).map
        (fun r => r.info.start)) =
      acc.map (fun r => r.info.start) ++
        (List.range sigs.length).map (fun t => (j + 1 + t) * d) := by
  induction sigs with
  | nil => intro j idx acc _; simp [notifLoop]
  | cons s rest ih =>
    intro j idx acc hs
    simp only [notifLoop, linSeq_getElem]
    have hmax : max s ((j + 1) * d) = (j + 1) * d := by
      have h1 : s < d := hs s (by simp)
      have h2 : d ≤ (j + 1) * d := by
        calc d = 1 * d := (Nat.one_mul d).symm
        _ ≤ (j + 1) * d := Nat.mul_le_mul_right d (by omega)
      exact Nat.max_eq_right (le_trans (le_of_lt h1) h2)
    rw [hmax]
    have hme : (runCall (createProducer none 1 d) (fun o => o) (some j) idx
        ((j + 1) * d)).markerEvs = [((j + 1) * d + d, j + 1)] := by
      rw [runCall_linear]
    rw [hme, linSeq_merge]
    rw [ih (j + 1) (idx + 1) _ (fun s' hs' => hs s' (by simp [hs']))]
    have hstart : (runCall (createProducer none 1 d) (fun o => o) (some j) idx
        ((j + 1) * d)).info.start = (j + 1) * d := by
      rw [runCall_linear]
    have hrange : (List.range (rest.length + 1)).map (fun t => (j + 1 + t) * d) =
        (j + 1) * d :: (List.range rest.length).map (fun t => (j + 1 + 1 + t) * d) := by
      rw [List.range_succ_eq_map, List.map_cons, List.map_map]
      refine congrArg₂ List.cons (by simp) ?_
      refine List.map_congr_left ?_
      intro t _
      simp only [Function.comp_apply]
      refine congrArg (· * d) ?_
      omega
    simp only [List.map_append, List.map_cons, List.map_nil, hstart,
      List.length_cons, hrange]
    simp

/-- C3: in notifier-driven mode every pacing signal that arrives while the
root producer call is still in flight is queued, not dropped, and the queued
signals are drained one per subsequent producer call as markers become
available: for the linear-chain producer with chunk delay `d`, any `k`
signals arriving before frame `d` yield exactly `k` further advances, at
frames `d, 2d, …, kd` — each started the moment the previous call's chunk
has been ingested, consuming one queued signal. -/
theorem queued_signals_each_advance_once (d : Nat) (sigs : List Nat)
    (h : ∀ s ∈ sigs, s < d) :
    ((runNotif (createProducer none 1 d) sigs).calls.map (fun ci => ci.start)) =
      0 :: (List.range sigs.length).map (fun t => (1 + t) * d) ∧
    ((runNotif (createProducer none 1 d) sigs).calls).length = 1 + sigs.length := by
  have hseq : ((runCall (createProducer none 1 d) (fun o => o) none 0 0).markerEvs) =
      linSeq d (0 + 1) := by
    rw [runCall_linear_root]
    have hr1 : List.range 1 = [0] := rfl
    simp [linSeq, hr1, Nat.one_mul]
  have hcalls : ((runNotif (createProducer none 1 d) sigs).calls.map
      (fun ci => ci.start)) =
      0 :: (List.range sigs.length).map (fun t => (1 + t) * d) := by
    simp only [runNotif, hseq, List.map_map]
    rw [show ((fun ci => ci.start) ∘ fun (r : CallOut Nat String) => r.info) =
      (fun r => r.info.start) from rfl]
    rw [notifLoop_linear_starts d sigs 0 1 _ h]
    rw [runCall_linear_root]
    simp
  refine ⟨hcalls, ?_⟩
  have := congrArg List.length hcalls
  simp at this
  omega

/-- Witness for the signal-queuing theorem at the
`should queue notifications` scenario: both signals (frames 1 and 2) arrive
while the root call is still pending (its chunk lands at frame 4); the
traversal makes exactly two further advances, at frames 4 and 8. -/
theorem queued_signals_each_advance_once_witness :
    (∀ s ∈ ([1, 2] : List Nat), s < 4) ∧
    (((runNotif (createProducer none 1 4) [1, 2]).calls.map (fun ci => ci.start)) =
      0 :: (List.range ([1, 2] : List Nat).length).map (fun t => (1 + t) * 4) ∧
    ((runNotif (createProducer none 1 4) [1, 2]).calls).length =
      1 + ([1, 2] : List Nat).length) :=
  ⟨by decide, queued_signals_each_advance_once 4 [1, 2] (by decide)⟩

end TraverseModel
